import Mathlib

/-!
# mosh-srv: a shallow embedding of `main.go`

The program resolves the SRV records `_mosh._udp.<hostname>` and starts the
`mosh` client for the records it got.  Everything the program does to the
outside world is recorded as a list of events (DNS lookups, text written to
standard output, client processes started) together with the way the process
ends.  The outside world is a parameter (`Env`): what the resolver answers,
and what `cmd.Run()` returns for each client process.

Modelling conventions
* a Go `string` is a Lean `String`; byte indexing is read as character
  indexing, which agrees with Go on every valid UTF-8 string for the only test
  the program makes (comparison with the ASCII byte `.`);
* `uint16` is a `Nat` below `65536`, additions are reduced modulo `65536`;
* `os.Exit(n)` and a run-time panic end the program: `Halt.exit n`,
  `Halt.panic` (the Go runtime exits with status 2 on a panic);
* lines written through package `log` go to standard error with a time stamp
  and are not part of the event list.
-/

namespace MoshSrv

/-! ## Data model -/

/-- Go: `type ConnectionType int`. -/
abbrev ConnectionType := Int

/-- Go: `Mosh ConnectionType = iota` (first constant of the block). -/
def Mosh : ConnectionType := 0

/-- Go: `Ssh ConnectionType = iota` (second constant of the block). -/
def Ssh : ConnectionType := 1

/-- Go: `net.SRV`; `Port`, `Priority` and `Weight` are `uint16`. -/
structure SRV where
  Target : String
  Port : Nat
  Priority : Nat
  Weight : Nat
  deriving DecidableEq, Repr

/-- A non-nil `error` returned by `cmd.Run()`: either an `*exec.ExitError`
(the child ran and did not complete successfully; `code` is its exit code)
or any other error (the child could not be started, ...). -/
inductive RunError where
  | exitError (code : Int)
  | other (msg : String)
  deriving DecidableEq, Repr

/-- What the program does to the outside world.  An `exec` event is one call
of `cmd.Run()` for the given binary and arguments, whether or not the process
could be started. -/
inductive Event where
  | lookupSRV (service proto name : String)
  | stdout (text : String)
  | exec (shell : String) (args : List String)
  deriving DecidableEq, Repr

/-- How the process ends before `main` returns. -/
inductive Halt where
  | exit (code : Nat)
  | panic
  deriving DecidableEq, Repr

/-- Result of a call: it returns a value or ends the process. -/
inductive Outcome (α : Type) where
  | ret (a : α)
  | halt (h : Halt)
  deriving DecidableEq, Repr

/-- A call: the events it produced, in order, and its result. -/
structure Eff (α : Type) where
  trace : List Event
  out : Outcome α
  deriving DecidableEq, Repr

/-- The outside world.
* `LookupSRV service proto name` is the pair `(addrs, err)` of
  `net.LookupSRV` (the canonical name is dropped by the program);
* `Run n shell args` is what `cmd.Run()` returns for the client process
  started after `n` earlier ones (`none` is Go `nil`);
* `showSRVs` is the text `fmt.Println` gives for a `[]*net.SRV` (pointer
  values). -/
structure Env where
  LookupSRV : String → String → String → List SRV × Option String
  Run : Nat → String → List String → Option RunError
  showSRVs : List SRV → String

/-- A finished run of the program: its events and its exit. -/
structure ProgramRun where
  trace : List Event
  status : Halt
  deriving DecidableEq, Repr

/-! ## Formatting helpers of package `fmt` -/

/-- Go: `fmt.Println(label, xs)` for a `[]string`: the label, a space, the
elements between brackets separated by spaces, a newline. -/
def printlnStrings (label : String) (xs : List String) : String :=
  label ++ " [" ++ " ".intercalate xs ++ "]\n"

/-- Go: `uint16` addition. -/
def addU16 (a b : Nat) : Nat := (a + b) % 65536

/-! ## `help` -/

/-- The text `help` prints for program name `prog` (format of line 38). -/
def usage (prog : String) : String :=
  "Mosh SRV\n" ++ prog ++ " hostname [mosh arguments...]\n\nThe hostname argument is required.\n"

/-- Go: `help(args)`: prints the usage with `args[0]`, then `os.Exit(255)`.
Indexing an empty `args` panics. -/
def help (args : List String) : Eff Unit :=
  match args[0]? with
  | none => ⟨[], .halt .panic⟩
  | some prog => ⟨[.stdout (usage prog)], .halt (.exit 255)⟩

/-! ## `querySRV` -/

/-- Go: `querySRV(connection, hostname)`.  The result pair is `(srvs, err)`;
the named result `srvs` is `nil` where the function returns it untouched. -/
def querySRV (env : Env) (connection : ConnectionType) (hostname : String) :
    Eff (List SRV × Option String) :=
  if connection = Mosh then
    let r := env.LookupSRV "mosh" "udp" hostname
    ⟨[.lookupSRV "mosh" "udp" hostname],
      match r.2 with
      | some err => .ret ([], some err)
      | none => .ret (r.1, none)⟩
  else if connection = Ssh then
    -- net.LookupSRV("ssh", "tcp", hostname); log.Fatalln(...)
    ⟨[.lookupSRV "ssh" "tcp" hostname], .halt (.exit 1)⟩
  else
    -- log.Fatalln("Unknown connection type")
    ⟨[], .halt (.exit 1)⟩

/-! ## `callShell` -/

/-- The `switch` at the head of `callShell`: the client binary, `none` where
`log.Fatalln` ends the process. -/
def shellOf (connection : ConnectionType) : Option String :=
  if connection = Mosh then some "mosh"
  else if connection = Ssh then some "ssh"
  else none

/-- Lines 73-80 of `callShell`: `last := len(Target) - 1`; when
`Target[last] == '.'` the host name is `Target[:last]`, else `Target`.
`none` where the index expression panics (empty target, `last = -1`). -/
def targetHostname (target : String) : Option String :=
  let last : Int := (target.length : Int) - 1
  if last < 0 then none
  else
    match target.data.get? last.toNat with
    | none => none
    | some c =>
      if c = '.' then some ⟨target.data.take last.toNat⟩
      else some target

/-- Line 85: `fmt.Sprintf("%v:%v", srv.Port, srv.Port+1000)` with `srv.Port`
of type `uint16`. -/
def portPair (port : Nat) : String :=
  toString port ++ ":" ++ toString (addU16 port 1000)

/-- Lines 82-88 of `callShell`: the argument vector, built by four
`append`s. -/
def shellArgv (srv : SRV) (shellArgs : List String) (hostname : String) : List String :=
  let args : List String := []
  let args := args ++ shellArgs
  let args := args ++ ["-p", portPair srv.Port]
  let args := args ++ ["--no-ssh-pty"]
  let args := args ++ [hostname]
  args

/-- Go: `callShell(connection, srv, shellArgs)`; `n` is the number of client
processes started before this call.  Returns the error of `cmd.Run()`. -/
def callShell (env : Env) (n : Nat) (connection : ConnectionType) (srv : SRV)
    (shellArgs : List String) : Eff (Option RunError) :=
  match shellOf connection with
  | none => ⟨[], .halt (.exit 1)⟩
  | some shell =>
    match targetHostname srv.Target with
    | none => ⟨[], .halt .panic⟩
    | some hostname =>
      let args := shellArgv srv shellArgs hostname
      ⟨[.stdout (printlnStrings "args" args), .exec shell args],
        .ret (env.Run n shell args)⟩

/-! ## `main` -/

/-- Go: `copy(dst, src)` on slices: the first `min(len(dst), len(src))`
elements of `dst` are overwritten. -/
def goCopy (dst src : List String) : List String :=
  src.take dst.length ++ dst.drop src.length

/-- Lines 110-113 of `main`: `make([]string, len(args)-2)`, filled from
`args[2:]` when `len(args) > 2`.  `main` reaches these lines only with
`len(args) >= 2`, so the length is never negative. -/
def mkShellArgs (args : List String) : List String :=
  let shellArgs := List.replicate (args.length - 2) ""
  if args.length > 2 then goCopy shellArgs (args.drop 2) else shellArgs

/-- Lines 124-134 of `main`: the `for ... range srvs` loop; `n` counts the
iterations already made. -/
def dispatch (env : Env) (connection : ConnectionType) (shellArgs : List String) :
    Nat → List SRV → Eff Unit
  | _, [] => ⟨[], .ret ()⟩
  | n, srv :: rest =>
    let call := callShell env n connection srv shellArgs
    let tr := Event.stdout ("Trying host " ++ srv.Target ++ "\n") :: call.trace
    match call.out with
    | .halt h => ⟨tr, .halt h⟩
    | .ret none =>
      -- err == nil: the body ends, the loop goes on with the next record
      let next := dispatch env connection shellArgs (n + 1) rest
      ⟨tr ++ next.trace, next.out⟩
    | .ret (some (.exitError _)) =>
      -- continue
      let next := dispatch env connection shellArgs (n + 1) rest
      ⟨tr ++ next.trace, next.out⟩
    | .ret (some (.other _)) =>
      -- log.Fatal(err)
      ⟨tr, .halt (.exit 1)⟩

/-- Exit of the process for a call made last in `main`: returning from `main`
is exit status 0. -/
def finish (e : Eff Unit) : ProgramRun :=
  match e.out with
  | .ret _ => ⟨e.trace, .exit 0⟩
  | .halt h => ⟨e.trace, h⟩

/-- Go: `main()` run with `os.Args = args`. -/
def main (env : Env) (args : List String) : ProgramRun :=
  if args.length < 2 then
    finish (help args)
  else
    match args[1]? with
    | none => ⟨[], .panic⟩
    | some hostname =>
      let connection := Mosh
      let shellArgs := mkShellArgs args
      let tr := [Event.stdout (printlnStrings "args" args)]
      let q := querySRV env connection hostname
      let tr := tr ++ q.trace
      match q.out with
      | .halt h => ⟨tr, h⟩
      | .ret (_, some _) =>
        -- log.Fatalln("Error querying SRV records:", err)
        ⟨tr, .exit 1⟩
      | .ret (srvs, none) =>
        let tr := tr ++ [Event.stdout ("SRVs " ++ env.showSRVs srvs ++ "\n")]
        let loop := finish (dispatch env connection shellArgs 0 srvs)
        ⟨tr ++ loop.trace, loop.status⟩

/-! ## Observations on event lists -/

/-- The client commands run (calls of `cmd.Run()`), in order. -/
def execs : List Event → List (String × List String)
  | [] => []
  | .exec shell args :: es => (shell, args) :: execs es
  | _ :: es => execs es

/-- The SRV lookups issued, in order. -/
def lookups : List Event → List (String × String × String)
  | [] => []
  | .lookupSRV s p n :: es => (s, p, n) :: lookups es
  | _ :: es => lookups es

/-- The text written to standard output, in order. -/
def stdouts : List Event → List String
  | [] => []
  | .stdout t :: es => t :: stdouts es
  | _ :: es => stdouts es

/-- Exit status of a client process, read off what `cmd.Run()` returned:
`nil` is status 0, an `*exec.ExitError` carries the status; any other error
means that no status is known. -/
def clientStatus : Option RunError → Option Int
  | none => some 0
  | some (.exitError code) => some code
  | some (.other _) => none

/-- Exit status of the program as an integer (a panic is status 2). -/
def programStatus : Halt → Int
  | .exit code => code
  | .panic => 2

/-! ## Sample worlds used for concrete runs -/

/-- A resolver answering two records for every name. -/
def twoRecords : List SRV :=
  [⟨"a.example.org.", 60001, 10, 0⟩, ⟨"b.example.org.", 60002, 20, 0⟩]

/-- A world where the lookup succeeds with `twoRecords` and every client
exits with status 0. -/
def envAllOk : Env :=
  ⟨fun _ _ _ => (twoRecords, none), fun _ _ _ => none, fun _ => "[]"⟩

/-- A world with one record whose client exits with status 1. -/
def envExit1 : Env :=
  ⟨fun _ _ _ => ([⟨"a.example.org.", 60001, 10, 0⟩], none),
    fun _ _ _ => some (.exitError 1), fun _ => "[]"⟩

/-- A world where the lookup fails. -/
def envNoDNS : Env :=
  ⟨fun _ _ _ => ([], some "no such host"), fun _ _ _ => none, fun _ => "[]"⟩

/-- Three records, as a resolver could order them. -/
def threeRecords : List SRV :=
  [⟨"a.example.org.", 60001, 10, 0⟩, ⟨"b.example.org.", 60002, 20, 0⟩,
    ⟨"c.example.org", 60003, 30, 0⟩]

/-- A world where the first client exits with status 1 and the later ones
with status 0. -/
def envFallback : Env :=
  ⟨fun _ _ _ => (twoRecords, none),
    fun n _ _ => if n = 0 then some (.exitError 1) else none, fun _ => "[]"⟩

/-- A world where the first client exits with status 1 and the later ones
cannot be started. -/
def envNoStart : Env :=
  ⟨fun _ _ _ => (threeRecords, none),
    fun n _ _ => if n = 0 then some (.exitError 1) else some (.other "fork/exec failed"),
    fun _ => "[]"⟩

/-- The client command `callShell` starts for a record: the binary and its
argument vector; `none` where `callShell` ends the process before starting
one. -/
def clientCmd (connection : ConnectionType) (srv : SRV) (shellArgs : List String) :
    Option (String × List String) :=
  match shellOf connection, targetHostname srv.Target with
  | some shell, some hostname => some (shell, shellArgv srv shellArgs hostname)
  | _, _ => none

/-- Exit status of the client process started last in a run, `none` when no
client was started or when it has no status. -/
def lastClientStatus (env : Env) (tr : List Event) : Option Int :=
  match (execs tr).getLast? with
  | none => none
  | some (shell, args) => clientStatus (env.Run ((execs tr).length - 1) shell args)

/-- The call returned `nil` or an `*exec.ExitError`: the loop goes on. -/
def Recoverable (o : Outcome (Option RunError)) : Prop :=
  o = .ret none ∨ ∃ code, o = .ret (some (.exitError code))

/-! ## Lemmas on the helpers -/

theorem targetHostname_concat (l : List Char) (c : Char) :
    targetHostname ⟨l ++ [c]⟩ = if c = '.' then some ⟨l⟩ else some ⟨l ++ [c]⟩ := by
  have hlen : (String.mk (l ++ [c])).length = l.length + 1 := by
    simp [String.length]
  unfold targetHostname
  simp only [hlen]
  have h1 : ((↑(l.length + 1) : Int) - 1) = (l.length : Int) := by push_cast; ring
  simp only [h1]
  have h2 : ¬ ((l.length : Int) < 0) := by omega
  simp only [h2, if_false, Int.toNat_ofNat]
  simp

theorem execs_append (a b : List Event) : execs (a ++ b) = execs a ++ execs b := by
  induction a with
  | nil => rfl
  | cons e es ih => cases e <;> simp [execs, ih]

theorem goCopy_replicate (n : Nat) (src : List String) (h : src.length = n) :
    goCopy (List.replicate n "") src = src := by
  subst h
  simp [goCopy]

theorem mkShellArgs_eq_drop (args : List String) : mkShellArgs args = args.drop 2 := by
  unfold mkShellArgs
  by_cases h : args.length > 2
  · simp only [h, if_true]
    exact goCopy_replicate _ _ (by simp)
  · simp only [h, if_false]
    have : args.drop 2 = [] := by
      apply List.drop_eq_nil_of_le; omega
    rw [this]
    have : args.length - 2 = 0 := by omega
    simp [this]

theorem lookups_append (a b : List Event) : lookups (a ++ b) = lookups a ++ lookups b := by
  induction a with
  | nil => rfl
  | cons e es ih => cases e <;> simp [lookups, ih]

/-- On a non-empty target the host name is the target less one trailing dot. -/
theorem targetHostname_of_ne (t : String) (h : t ≠ "") :
    targetHostname t =
      if t.data.getLast? = some '.' then some ⟨t.data.dropLast⟩ else some t := by
  obtain ⟨l⟩ := t
  rcases List.eq_nil_or_concat l with hl | ⟨init, c, hl⟩
  · subst hl
    exact absurd rfl h
  · rw [List.concat_eq_append] at hl
    subst hl
    rw [targetHostname_concat]
    by_cases hc : c = '.' <;> simp [hc]

/-- A call of `callShell` that returns has started exactly one client, the
one of `clientCmd`, and returns what `cmd.Run()` gave for it. -/
theorem callShell_of_ret {env : Env} {n : Nat} {c : ConnectionType} {srv : SRV}
    {A : List String} {e : Option RunError}
    (h : (callShell env n c srv A).out = .ret e) :
    ∃ cmd, clientCmd c srv A = some cmd ∧ e = env.Run n cmd.1 cmd.2 ∧
      (callShell env n c srv A).trace =
        [.stdout (printlnStrings "args" cmd.2), .exec cmd.1 cmd.2] := by
  unfold callShell at h ⊢
  unfold clientCmd
  cases hs : shellOf c with
  | none => simp [hs] at h
  | some shell =>
    cases ht : targetHostname srv.Target with
    | none => simp [hs, ht] at h
    | some hostname =>
      simp only [hs, ht] at h ⊢
      refine ⟨(shell, shellArgv srv A hostname), rfl, ?_, rfl⟩
      simpa using h.symm

/-- When every call returns `nil` or an exit error the loop runs over the
whole list and `main` goes on after it. -/
theorem dispatch_recoverable (env : Env) (c : ConnectionType) (A : List String) :
    ∀ (srvs : List SRV) (n : Nat),
      (∀ i srv, srvs[i]? = some srv → Recoverable (callShell env (n + i) c srv A).out) →
      (dispatch env c A n srvs).out = .ret () ∧
      (execs (dispatch env c A n srvs).trace).map some =
        srvs.map (fun srv => clientCmd c srv A) := by
  intro srvs
  induction srvs with
  | nil => intro n _; exact ⟨rfl, rfl⟩
  | cons srv rest ih =>
    intro n h
    have h0 : Recoverable (callShell env n c srv A).out := by
      simpa using h 0 srv (by simp)
    have hrest := ih (n + 1) (fun i s hi => by
      have := h (i + 1) s (by simpa using hi)
      rwa [show n + (i + 1) = n + 1 + i by omega] at this)
    rcases h0 with h0 | ⟨code, h0⟩
    all_goals
      obtain ⟨cmd, hcmd, -, htr⟩ := callShell_of_ret h0
      simp only [dispatch, h0, htr]
      refine ⟨hrest.1, ?_⟩
      simp [execs, execs_append, hcmd, hrest.2]

/-- When the call for the record at index `k` returns an error that is no exit
error, and the earlier calls returned `nil` or an exit error, the loop ends the
process with status 1 right after the client of record `k`. -/
theorem dispatch_fatal (env : Env) (c : ConnectionType) (A : List String) :
    ∀ (k : Nat) (srvs : List SRV) (n : Nat) (srv : SRV) (msg : String),
      srvs[k]? = some srv →
      (∀ i s, i < k → srvs[i]? = some s → Recoverable (callShell env (n + i) c s A).out) →
      (callShell env (n + k) c srv A).out = .ret (some (.other msg)) →
      (dispatch env c A n srvs).out = .halt (.exit 1) ∧
      (execs (dispatch env c A n srvs).trace).map some =
        (srvs.take (k + 1)).map (fun s => clientCmd c s A) ∧
      ∃ cmd, clientCmd c srv A = some cmd ∧
        (dispatch env c A n srvs).trace.getLast? = some (.exec cmd.1 cmd.2) := by
  intro k
  induction k with
  | zero =>
    intro srvs n srv msg hk _ hf
    cases srvs with
    | nil => simp at hk
    | cons s rest =>
      have hs : s = srv := by simpa using hk
      subst hs
      have hf0 : (callShell env n c s A).out = .ret (some (.other msg)) := by simpa using hf
      obtain ⟨cmd, hcmd, -, htr⟩ := callShell_of_ret hf0
      simp only [dispatch, hf0, htr]
      refine ⟨trivial, ?_, cmd, hcmd, ?_⟩
      · simp [execs, hcmd]
      · simp
  | succ k ih =>
    intro srvs n srv msg hk he hf
    cases srvs with
    | nil => simp at hk
    | cons s rest =>
      have hk2 : rest[k]? = some srv := by simpa using hk
      have h0 : Recoverable (callShell env n c s A).out := by
        simpa using he 0 s (by omega) (by simp)
      have hrest := ih rest (n + 1) srv msg hk2 (fun i t hi ht => by
        have := he (i + 1) t (by omega) (by simpa using ht)
        rwa [show n + (i + 1) = n + 1 + i by omega] at this)
        (by rwa [show n + (k + 1) = n + 1 + k by omega] at hf)
      obtain ⟨hout, hex, cmdk, hcmdk, hlast⟩ := hrest
      rcases h0 with h0 | ⟨code, h0⟩
      all_goals
        obtain ⟨cmd, hcmd, -, htr⟩ := callShell_of_ret h0
        simp only [dispatch, h0, htr]
        refine ⟨hout, ?_, cmdk, hcmdk, ?_⟩
        · simp [execs, execs_append, hcmd, hex]
        · have hne : (dispatch env c A (n + 1) rest).trace ≠ [] := by
            intro hnil
            rw [hnil] at hlast
            simp at hlast
          rw [List.getLast?_append_of_ne_nil _ hne]
          exact hlast

/-- With a host name on the command line and a successful lookup, `main` is
the three leading events followed by the loop. -/
theorem main_of_lookup_ok (env : Env) (prog hostname : String) (A : List String)
    (srvs : List SRV) (hq : env.LookupSRV "mosh" "udp" hostname = (srvs, none)) :
    main env (prog :: hostname :: A) =
      ⟨[.stdout (printlnStrings "args" (prog :: hostname :: A)),
        .lookupSRV "mosh" "udp" hostname,
        .stdout ("SRVs " ++ env.showSRVs srvs ++ "\n")] ++
          (dispatch env Mosh A 0 srvs).trace,
        (finish (dispatch env Mosh A 0 srvs)).status⟩ := by
  have hA : mkShellArgs (prog :: hostname :: A) = A := by
    rw [mkShellArgs_eq_drop]; rfl
  unfold main
  simp only [List.length_cons, show ¬ (A.length + 1 + 1 < 2) by omega, if_false]
  simp only [List.getElem?_cons_succ, List.getElem?_cons_zero, hA]
  simp only [querySRV, if_true, hq]
  cases hd : (dispatch env Mosh A 0 srvs).out <;> simp [finish, hd]

/-- Below the top of the port range the pair is the port and the port plus
1000. -/
theorem portPair_of_lt (p : Nat) (h : p + 1000 < 65536) :
    portPair p = toString p ++ ":" ++ toString (p + 1000) := by
  simp [portPair, addU16, Nat.mod_eq_of_lt h]

/-! ## The dispatch loop -/

/-- C1 (code bug): the loop of `main` has no `break` on success.  With two
records whose clients both exit with status 0, `callShell` returns `nil` for
the record at index 0 and the loop still starts the client for the record at
index 1. -/
theorem C1_loop_continues_after_success :
    (callShell envAllOk 0 Mosh ⟨"a.example.org.", 60001, 10, 0⟩ []).out = .ret none ∧
    execs (dispatch envAllOk Mosh [] 0 twoRecords).trace =
      [("mosh", ["-p", "60001:61001", "--no-ssh-pty", "a.example.org"]),
       ("mosh", ["-p", "60002:61002", "--no-ssh-pty", "b.example.org"])] := by
  decide

/-- C2: for a list of exactly `N ≥ 1` records, when `callShell` returns an
exit error for each of the first `N - 1` records and `nil` for the last one,
the loop starts exactly `N` clients, the one of each record in list order, and
then returns. -/
theorem C2_fallback_on_exit_error (env : Env) (A : List String) (srvs : List SRV) (N : Nat)
    (_hN : 1 ≤ N) (hlen : srvs.length = N)
    (hfail : ∀ i srv, i + 1 < N → srvs[i]? = some srv →
      ∃ code, (callShell env i Mosh srv A).out = .ret (some (.exitError code)))
    (hlast : ∀ srv, srvs[N - 1]? = some srv →
      (callShell env (N - 1) Mosh srv A).out = .ret none) :
    (execs (dispatch env Mosh A 0 srvs).trace).length = N ∧
    (execs (dispatch env Mosh A 0 srvs).trace).map some =
      srvs.map (fun srv => clientCmd Mosh srv A) ∧
    (dispatch env Mosh A 0 srvs).out = .ret () := by
  have hrec : ∀ i srv, srvs[i]? = some srv →
      Recoverable (callShell env (0 + i) Mosh srv A).out := by
    intro i srv hi
    rw [Nat.zero_add]
    have hi2 : i < srvs.length := (List.getElem?_eq_some_iff.mp hi).1
    by_cases hc : i + 1 < N
    · exact Or.inr (hfail i srv hc hi)
    · have : i = N - 1 := by omega
      subst this
      exact Or.inl (hlast srv hi)
  obtain ⟨hout, hex⟩ := dispatch_recoverable env Mosh A srvs 0 hrec
  refine ⟨?_, hex, hout⟩
  have := congrArg List.length hex
  simpa [hlen] using this

/-- Witness of C2: two records, the first client exits with status 1, the
second with status 0. -/
theorem C2_fallback_on_exit_error_witness :
    (execs (dispatch envFallback Mosh [] 0 twoRecords).trace).length = 2 ∧
    (execs (dispatch envFallback Mosh [] 0 twoRecords).trace).map some =
      twoRecords.map (fun srv => clientCmd Mosh srv []) ∧
    (dispatch envFallback Mosh [] 0 twoRecords).out = .ret () :=
  C2_fallback_on_exit_error envFallback [] twoRecords 2 (by decide) (by decide)
    (by
      intro i srv hi h
      have hi0 : i = 0 := by omega
      subst hi0
      have hs : srv = ⟨"a.example.org.", 60001, 10, 0⟩ := by
        simpa [twoRecords] using h.symm
      subst hs
      exact ⟨1, by decide⟩)
    (by
      intro srv h
      have hs : srv = ⟨"b.example.org.", 60002, 20, 0⟩ := by
        simpa [twoRecords] using h.symm
      subst hs
      decide)

/-- C3: in a run of `main` whose lookup succeeded, when `callShell` returns an
error that is no exit error for the record at index `k`, every earlier call
having returned an exit error, the program ends with status 1 (not zero) right
after the call for record `k`: the client commands run by the program are
those of records `0..k`, in order, none for a later record, and the last event
of the whole run is the `cmd.Run()` of record `k`.  The same holds of the loop
taken alone. -/
theorem C3_other_failure_fatal (env : Env) (prog hostname : String) (A : List String)
    (srvs : List SRV) (k : Nat) (srv : SRV) (msg : String)
    (hq : env.LookupSRV "mosh" "udp" hostname = (srvs, none))
    (hk : srvs[k]? = some srv)
    (hearlier : ∀ i s, i < k → srvs[i]? = some s →
      ∃ code, (callShell env i Mosh s A).out = .ret (some (.exitError code)))
    (hfatal : (callShell env k Mosh srv A).out = .ret (some (.other msg))) :
    ((main env (prog :: hostname :: A)).status = .exit 1 ∧
      programStatus (main env (prog :: hostname :: A)).status ≠ 0 ∧
      (execs (main env (prog :: hostname :: A)).trace).length = k + 1 ∧
      (execs (main env (prog :: hostname :: A)).trace).map some =
        (srvs.take (k + 1)).map (fun s => clientCmd Mosh s A) ∧
      ∃ cmd, clientCmd Mosh srv A = some cmd ∧
        (main env (prog :: hostname :: A)).trace.getLast? = some (.exec cmd.1 cmd.2)) ∧
    (finish (dispatch env Mosh A 0 srvs)).status = .exit 1 ∧
    (execs (dispatch env Mosh A 0 srvs).trace).length = k + 1 ∧
    (execs (dispatch env Mosh A 0 srvs).trace).map some =
      (srvs.take (k + 1)).map (fun s => clientCmd Mosh s A) ∧
    ∃ cmd, clientCmd Mosh srv A = some cmd ∧
      (dispatch env Mosh A 0 srvs).trace.getLast? = some (.exec cmd.1 cmd.2) := by
  have hklt : k < srvs.length := (List.getElem?_eq_some_iff.mp hk).1
  obtain ⟨hout, hex, cmd, hcmd, hlast⟩ := dispatch_fatal env Mosh A k srvs 0 srv msg hk
    (fun i s hi hs => by
      rw [Nat.zero_add]
      exact Or.inr (hearlier i s hi hs))
    (by rwa [Nat.zero_add])
  have hst : (finish (dispatch env Mosh A 0 srvs)).status = .exit 1 := by
    simp [finish, hout]
  have hlen : (execs (dispatch env Mosh A 0 srvs).trace).length = k + 1 := by
    have := congrArg List.length hex
    simp only [List.length_map, List.length_take] at this
    omega
  have hne : (dispatch env Mosh A 0 srvs).trace ≠ [] := by
    intro hnil
    rw [hnil] at hlast
    simp at hlast
  have hmain := main_of_lookup_ok env prog hostname A srvs hq
  have hex_main : execs (main env (prog :: hostname :: A)).trace =
      execs (dispatch env Mosh A 0 srvs).trace := by
    rw [hmain]
    simp [execs, execs_append]
  refine ⟨⟨?_, ?_, ?_, ?_, cmd, hcmd, ?_⟩, hst, hlen, hex, cmd, hcmd, hlast⟩
  · rw [hmain]; exact hst
  · rw [hmain]
    show programStatus (finish (dispatch env Mosh A 0 srvs)).status ≠ 0
    rw [hst]
    decide
  · rw [hex_main]; exact hlen
  · rw [hex_main]; exact hex
  · rw [hmain]
    show (_ ++ (dispatch env Mosh A 0 srvs).trace).getLast? = _
    rw [List.getLast?_append_of_ne_nil _ hne]
    exact hlast

/-- Witness of C3: three records, the first client exits with status 1, the
second cannot be started; the third record is never tried. -/
theorem C3_other_failure_fatal_witness :
    ((main envNoStart ("mosh-srv" :: "example.org" :: [])).status = .exit 1 ∧
      programStatus (main envNoStart ("mosh-srv" :: "example.org" :: [])).status ≠ 0 ∧
      (execs (main envNoStart ("mosh-srv" :: "example.org" :: [])).trace).length = 1 + 1 ∧
      (execs (main envNoStart ("mosh-srv" :: "example.org" :: [])).trace).map some =
        (threeRecords.take (1 + 1)).map (fun s => clientCmd Mosh s []) ∧
      ∃ cmd, clientCmd Mosh ⟨"b.example.org.", 60002, 20, 0⟩ [] = some cmd ∧
        (main envNoStart ("mosh-srv" :: "example.org" :: [])).trace.getLast? =
          some (.exec cmd.1 cmd.2)) ∧
    (finish (dispatch envNoStart Mosh [] 0 threeRecords)).status = .exit 1 ∧
    (execs (dispatch envNoStart Mosh [] 0 threeRecords).trace).length = 1 + 1 ∧
    (execs (dispatch envNoStart Mosh [] 0 threeRecords).trace).map some =
      (threeRecords.take (1 + 1)).map (fun s => clientCmd Mosh s []) ∧
    ∃ cmd, clientCmd Mosh ⟨"b.example.org.", 60002, 20, 0⟩ [] = some cmd ∧
      (dispatch envNoStart Mosh [] 0 threeRecords).trace.getLast? =
        some (.exec cmd.1 cmd.2) :=
  C3_other_failure_fatal envNoStart "mosh-srv" "example.org" [] threeRecords 1
    ⟨"b.example.org.", 60002, 20, 0⟩ "fork/exec failed" (by decide) (by decide)
    (by
      intro i s hi h
      have hi0 : i = 0 := by omega
      subst hi0
      have hs : s = ⟨"a.example.org.", 60001, 10, 0⟩ := by
        simpa [threeRecords] using h.symm
      subst hs
      exact ⟨1, by decide⟩)
    (by decide)

/-! ## The client command -/

/-- On a non-empty target and the Mosh connection type `callShell` starts
`mosh` with the pass-through arguments followed by the four derived ones. -/
theorem callShell_mosh_execs (env : Env) (n : Nat) (srv : SRV) (A : List String)
    (ht : srv.Target ≠ "") :
    ∃ hostname, targetHostname srv.Target = some hostname ∧
      execs (callShell env n Mosh srv A).trace =
        [("mosh", A ++ ["-p", portPair srv.Port, "--no-ssh-pty", hostname])] := by
  have h := targetHostname_of_ne srv.Target ht
  by_cases hc : srv.Target.data.getLast? = some '.'
  · rw [if_pos hc] at h
    refine ⟨_, h, ?_⟩
    simp [callShell, shellOf, h, execs, shellArgv]
  · rw [if_neg hc] at h
    refine ⟨_, h, ?_⟩
    simp [callShell, shellOf, h, execs, shellArgv]

/-- C4: for every argument vector `args` of the program (with its host name)
and every record with a non-empty target, the arguments `callShell` gives the
`mosh` client are `args[2:]`, unmodified and in order, followed by `-p`, the
port pair, `--no-ssh-pty` and the normalized host name: the length is
`len(args[2:]) + 4`, the leading part is `args[2:]`, the last element is the
host name. -/
theorem C4_argument_vector_shape (env : Env) (n : Nat) (args : List String) (srv : SRV)
    (_hargs : 2 ≤ args.length) (ht : srv.Target ≠ "") :
    ∃ hostname argv, targetHostname srv.Target = some hostname ∧
      execs (callShell env n Mosh srv (mkShellArgs args)).trace = [("mosh", argv)] ∧
      argv = args.drop 2 ++ ["-p", portPair srv.Port, "--no-ssh-pty", hostname] ∧
      argv.length = (args.drop 2).length + 4 ∧
      argv.take (args.drop 2).length = args.drop 2 ∧
      argv.getLast? = some hostname := by
  obtain ⟨hostname, hh, hex⟩ := callShell_mosh_execs env n srv (mkShellArgs args) ht
  rw [mkShellArgs_eq_drop] at hex
  refine ⟨hostname, _, hh, ?_, rfl, ?_, ?_, ?_⟩
  · rw [mkShellArgs_eq_drop]; exact hex
  · simp
  · simp
  · simp

/-- Witness of C4: two pass-through arguments and a target with a trailing
dot. -/
theorem C4_argument_vector_shape_witness :
    ∃ hostname argv, targetHostname "a.example.org." = some hostname ∧
      execs (callShell envAllOk 0 Mosh ⟨"a.example.org.", 60001, 10, 0⟩
        (mkShellArgs ["mosh-srv", "example.org", "--predict=always", "-4"])).trace =
          [("mosh", argv)] ∧
      argv = ["mosh-srv", "example.org", "--predict=always", "-4"].drop 2 ++
        ["-p", portPair 60001, "--no-ssh-pty", hostname] ∧
      argv.length = (["mosh-srv", "example.org", "--predict=always", "-4"].drop 2).length + 4 ∧
      argv.take (["mosh-srv", "example.org", "--predict=always", "-4"].drop 2).length =
        ["mosh-srv", "example.org", "--predict=always", "-4"].drop 2 ∧
      argv.getLast? = some hostname :=
  C4_argument_vector_shape envAllOk 0 ["mosh-srv", "example.org", "--predict=always", "-4"]
    ⟨"a.example.org.", 60001, 10, 0⟩ (by decide) (by decide)

/-- C5: for every non-empty target `t`, when the last character of `t` is a
dot the host name given to the client is `t` less that one character (so
`host..` gives `host.`), otherwise it is `t`; that host name is the last
argument of the client. -/
theorem C5_hostname_normalization (t : String) (ht : t ≠ "") :
    (t.data.getLast? = some '.' → targetHostname t = some ⟨t.data.dropLast⟩) ∧
    (t.data.getLast? ≠ some '.' → targetHostname t = some t) ∧
    targetHostname "host.." = some "host." ∧
    ∀ (env : Env) (n : Nat) (A : List String) (port prio weight : Nat),
      ∃ hostname, targetHostname t = some hostname ∧
        execs (callShell env n Mosh ⟨t, port, prio, weight⟩ A).trace =
          [("mosh", A ++ ["-p", portPair port, "--no-ssh-pty", hostname])] := by
  have h := targetHostname_of_ne t ht
  refine ⟨fun hc => by rw [h, if_pos hc], fun hc => by rw [h, if_neg hc], by decide, ?_⟩
  intro env n A port prio weight
  exact callShell_mosh_execs env n ⟨t, port, prio, weight⟩ A ht

/-- Witness of C5: the target `host..`. -/
theorem C5_hostname_normalization_witness :
    ("host..".data.getLast? = some '.' →
      targetHostname "host.." = some ⟨"host..".data.dropLast⟩) ∧
    ("host..".data.getLast? ≠ some '.' → targetHostname "host.." = some "host..") ∧
    targetHostname "host.." = some "host." ∧
    ∀ (env : Env) (n : Nat) (A : List String) (port prio weight : Nat),
      ∃ hostname, targetHostname "host.." = some hostname ∧
        execs (callShell env n Mosh ⟨"host..", port, prio, weight⟩ A).trace =
          [("mosh", A ++ ["-p", portPair port, "--no-ssh-pty", hostname])] :=
  C5_hostname_normalization "host.." (by decide)

/-- C6 (code bug): `srv.Port + 1000` is a `uint16` addition and wraps.  For
the advertised port 65535 the value after `-p` is `65535:999`, not the port
and the integer 66535. -/
theorem C6_port_pair_wraps :
    portPair 65535 = "65535:999" ∧
    portPair 65535 ≠ toString 65535 ++ ":" ++ toString (65535 + 1000) ∧
    execs (callShell envAllOk 0 Mosh ⟨"a.example.org.", 65535, 10, 0⟩ []).trace =
      [("mosh", ["-p", "65535:999", "--no-ssh-pty", "a.example.org"])] := by
  decide

/-! ## Exit status and fatal paths of `main` -/

/-- C7 (counterexample): one record whose client exits with status 1.  The
lookup succeeds, one client is started, `callShell` returns an exit error (no
fatal failure), the last client has status 1 and the program ends with
status 0. -/
theorem C7_exit_status_counterexample :
    envExit1.LookupSRV "mosh" "udp" "example.org" =
      ([⟨"a.example.org.", 60001, 10, 0⟩], none) ∧
    execs (main envExit1 ["mosh-srv", "example.org"]).trace =
      [("mosh", ["-p", "60001:61001", "--no-ssh-pty", "a.example.org"])] ∧
    (callShell envExit1 0 Mosh ⟨"a.example.org.", 60001, 10, 0⟩ []).out =
      .ret (some (.exitError 1)) ∧
    lastClientStatus envExit1 (main envExit1 ["mosh-srv", "example.org"]).trace = some 1 ∧
    programStatus (main envExit1 ["mosh-srv", "example.org"]).status = 0 ∧
    some (programStatus (main envExit1 ["mosh-srv", "example.org"]).status) ≠
      lastClientStatus envExit1 (main envExit1 ["mosh-srv", "example.org"]).trace := by
  decide

/-- C7 (amended): when the lookup succeeds with at least one record and every
call of `callShell` returns `nil` or an exit error, `main` returns after the
loop: the program ends with status 0 whatever the status of the last client,
and a client was started for every record. -/
theorem C7_exit_status_zero (env : Env) (prog hostname : String) (A : List String)
    (srvs : List SRV)
    (hq : env.LookupSRV "mosh" "udp" hostname = (srvs, none))
    (_hne : srvs ≠ [])
    (hrec : ∀ i srv, srvs[i]? = some srv → Recoverable (callShell env i Mosh srv A).out) :
    (main env (prog :: hostname :: A)).status = .exit 0 ∧
    (execs (main env (prog :: hostname :: A)).trace).length = srvs.length := by
  obtain ⟨hout, hex⟩ := dispatch_recoverable env Mosh A srvs 0
    (fun i srv hi => by rw [Nat.zero_add]; exact hrec i srv hi)
  rw [main_of_lookup_ok env prog hostname A srvs hq]
  refine ⟨by simp [finish, hout], ?_⟩
  have := congrArg List.length hex
  simpa [execs, execs_append] using this

/-- Witness of C7 (amended): the run of the counterexample. -/
theorem C7_exit_status_zero_witness :
    (main envExit1 ("mosh-srv" :: "example.org" :: [])).status = .exit 0 ∧
    (execs (main envExit1 ("mosh-srv" :: "example.org" :: [])).trace).length =
      [(⟨"a.example.org.", 60001, 10, 0⟩ : SRV)].length :=
  C7_exit_status_zero envExit1 "mosh-srv" "example.org" [] [⟨"a.example.org.", 60001, 10, 0⟩]
    (by decide) (by decide)
    (by
      intro i srv h
      have hi : i < 1 := by
        simpa using (List.getElem?_eq_some_iff.mp h).1
      have hi0 : i = 0 := by omega
      subst hi0
      have hs : srv = ⟨"a.example.org.", 60001, 10, 0⟩ := by simpa using h.symm
      subst hs
      exact Or.inr ⟨1, by decide⟩)

/-- C8: when the SRV lookup for `mosh`/`udp` returns an error, `querySRV`
returns that error, `main` ends the program with status 1, and no client
process is started. -/
theorem C8_dns_failure_fatal (env : Env) (prog hostname : String) (A : List String)
    (e : String) (herr : (env.LookupSRV "mosh" "udp" hostname).2 = some e) :
    (querySRV env Mosh hostname).out = .ret ([], some e) ∧
    (main env (prog :: hostname :: A)).status = .exit 1 ∧
    execs (main env (prog :: hostname :: A)).trace = [] := by
  have hq : querySRV env Mosh hostname =
      ⟨[.lookupSRV "mosh" "udp" hostname], .ret ([], some e)⟩ := by
    simp [querySRV, herr]
  refine ⟨by rw [hq], ?_, ?_⟩
  · unfold main
    simp only [List.length_cons, show ¬ (A.length + 1 + 1 < 2) by omega, if_false]
    simp only [List.getElem?_cons_succ, List.getElem?_cons_zero, hq]
  · unfold main
    simp only [List.length_cons, show ¬ (A.length + 1 + 1 < 2) by omega, if_false]
    simp only [List.getElem?_cons_succ, List.getElem?_cons_zero, hq]
    rfl

/-- Witness of C8: a resolver answering `no such host`. -/
theorem C8_dns_failure_fatal_witness :
    (querySRV envNoDNS Mosh "example.org").out = .ret ([], some "no such host") ∧
    (main envNoDNS ("mosh-srv" :: "example.org" :: ["-4"])).status = .exit 1 ∧
    execs (main envNoDNS ("mosh-srv" :: "example.org" :: ["-4"])).trace = [] :=
  C8_dns_failure_fatal envNoDNS "mosh-srv" "example.org" ["-4"] "no such host" (by decide)

/-- C9 (counterexample): `querySRV` called with `Ssh` issues an SRV lookup
(service `ssh`, protocol `tcp`) before it ends the program. -/
theorem C9_ssh_lookup_counterexample :
    lookups (querySRV envAllOk Ssh "example.org").trace = [("ssh", "tcp", "example.org")] ∧
    lookups (querySRV envAllOk Ssh "example.org").trace ≠ [] := by
  decide

/-- C9 (amended): for every host name, `querySRV` called with `Ssh` issues
exactly one SRV lookup, for service `ssh` and protocol `tcp`, drops its result
and ends the program with status 1; no client process is started. -/
theorem C9_ssh_lookup_then_abort (env : Env) (hostname : String) :
    querySRV env Ssh hostname = ⟨[.lookupSRV "ssh" "tcp" hostname], .halt (.exit 1)⟩ ∧
    lookups (querySRV env Ssh hostname).trace = [("ssh", "tcp", hostname)] ∧
    execs (querySRV env Ssh hostname).trace = [] := by
  have h : querySRV env Ssh hostname =
      ⟨[.lookupSRV "ssh" "tcp" hostname], .halt (.exit 1)⟩ := by
    simp [querySRV, Ssh, Mosh]
  rw [h]
  exact ⟨rfl, rfl, rfl⟩

/-- C10: when the argument vector holds only the program name, `main` prints
the usage text, which contains the program name, and ends with status 255; no
SRV lookup is issued and no client process is started. -/
theorem C10_missing_hostname_usage (env : Env) (prog : String) :
    main env [prog] = ⟨[.stdout (usage prog)], .exit 255⟩ ∧
    prog.data <:+: (usage prog).data ∧
    lookups (main env [prog]).trace = [] ∧
    execs (main env [prog]).trace = [] := by
  have h : main env [prog] = ⟨[.stdout (usage prog)], .exit 255⟩ := by
    simp [main, help, finish]
  rw [h]
  refine ⟨rfl, ?_, rfl, rfl⟩
  exact ⟨"Mosh SRV\n".data,
    " hostname [mosh arguments...]\n\nThe hostname argument is required.\n".data,
    by simp [usage]⟩

end MoshSrv
